import Mathlib

/-!
Verification of the trend-analysis core of the clinicaltrialsgov-mcp-server
repository: the bounded study fetcher (`fetchAllStudies`) and the trend
aggregator (`analyzeTrendsLogic`) from
`src/mcp-server/tools/analyzeTrends/logic.ts`, over the data model of
`src/services/clinical-trials-gov/types.ts`.

The remote source (`ClinicalTrialsGovService.listStudies`) is external I/O.
It is modelled by the responses it hands the fetcher: one probe response and
the sequence of bulk-page responses returned to the strictly sequential bulk
requests of the fetch loop (the loop never issues two requests concurrently,
so this trace model is faithful).  A response is either an upstream error
(the code's thrown transport error) or a `PagedStudies` value.
-/

namespace ClinicalTrials

/-! ## Data model (types.ts, StudySchema / PagedStudiesSchema)

Only the modules the aggregation reads are transcribed field-for-field; every
field is optional in the zod schema (`.optional()`), hence `Option` here.
-/

/-- `statusModule` of a study (`overallStatus: z.string().optional()`). -/
structure StatusModule where
  overallStatus : Option String
deriving DecidableEq, Repr

/-- One entry of `contactsLocationsModule.locations`. -/
structure Location where
  city : Option String
  state : Option String
  country : Option String
deriving DecidableEq, Repr

/-- `contactsLocationsModule` (`locations: z.array(...).optional()`). -/
structure ContactsLocationsModule where
  locations : Option (List Location)
deriving DecidableEq, Repr

/-- `leadSponsor` inside `sponsorCollaboratorsModule`. -/
structure LeadSponsor where
  name : Option String
  «class» : Option String
deriving DecidableEq, Repr

/-- `sponsorCollaboratorsModule` of a study. -/
structure SponsorCollaboratorsModule where
  leadSponsor : Option LeadSponsor
deriving DecidableEq, Repr

/-- `designModule` of a study (`phases: z.array(z.string()).optional()`). -/
structure DesignModule where
  phases : Option (List String)
deriving DecidableEq, Repr

/-- `protocolSection` of a study, restricted to the modules the aggregation
logic dereferences via optional chaining. -/
structure ProtocolSection where
  statusModule : Option StatusModule
  contactsLocationsModule : Option ContactsLocationsModule
  sponsorCollaboratorsModule : Option SponsorCollaboratorsModule
  designModule : Option DesignModule
deriving DecidableEq, Repr

/-- A clinical study record (`StudySchema`); `protocolSection` itself is
optional. -/
structure Study where
  protocolSection : Option ProtocolSection
deriving DecidableEq, Repr

/-- `PagedStudiesSchema`: one page of the paginated search endpoint.
`studies` is kept optional because `fetchAndBackup` casts the raw JSON
without runtime validation and `fetchAllStudies` guards with
`if (pagedStudies.studies)`. `totalCount` is a JS number, modelled as `Int`. -/
structure PagedStudies where
  studies : Option (List Study)
  nextPageToken : Option String
  totalCount : Option Int
deriving DecidableEq, Repr

/-! ## Tallies (`results: Record<string, number>`)

A JS object literal used as a counter map: string keys are unique, an update
of an existing key keeps its position, and a fresh key is appended at the
end. Modelled as an association list with exactly those semantics. -/

/-- A `Record<string, number>` of counts, in JS-object insertion order. -/
abbrev Tally : Type := List (String × Nat)

/-- `results[key] = (results[key] || 0) + 1` on a JS object: increment the
entry for `key`, inserting it (at the end) with value 1 when absent. -/
def bump : Tally → String → Tally
  | [], key => [(key, 1)]
  | (k, v) :: rest, key =>
      if k = key then (k, v + 1) :: rest else (k, v) :: bump rest key

/-- Reading `results[key]`, with 0 for an absent key (the `|| 0`). -/
def tallyGet : Tally → String → Nat
  | [], _ => 0
  | (k, v) :: rest, key => if k = key then v else tallyGet rest key

/-- Sum of all counts stored in a tally. -/
def tallySum : Tally → Nat
  | [] => 0
  | (_, v) :: rest => v + tallySum rest

/-! ## Trend aggregation (`analyzeTrendsLogic`, logic.ts) -/

/-- `AnalysisTypeSchema`: the fixed enumeration of analysis kinds. -/
inductive AnalysisType where
  | countByStatus
  | countByCountry
  | countBySponsorType
  | countByPhase
deriving DecidableEq, Repr

/-- The `analysisType` input field: a single kind or a non-empty array of
kinds (`z.union([AnalysisTypeSchema, z.array(AnalysisTypeSchema).min(1)])`). -/
inductive AnalysisTypeSpec where
  | single (t : AnalysisType)
  | many (ts : List AnalysisType)
deriving DecidableEq, Repr

/-- `Array.isArray(analysisType) ? analysisType : [analysisType]`. -/
def AnalysisTypeSpec.toList : AnalysisTypeSpec → List AnalysisType
  | .single t => [t]
  | .many ts => ts

/-- `AnalysisResultSchema`: one result block of the tool output. -/
structure AnalysisResult where
  analysisType : AnalysisType
  totalStudies : Nat
  results : Tally
deriving DecidableEq, Repr

/-- Optional-chain `study.protocolSection?.statusModule?.overallStatus`. -/
def statusChain (study : Study) : Option String :=
  (study.protocolSection.bind (·.statusModule)).bind (·.overallStatus)

/-- Optional-chain `study.protocolSection?.contactsLocationsModule?.locations`. -/
def locationsChain (study : Study) : Option (List Location) :=
  (study.protocolSection.bind (·.contactsLocationsModule)).bind (·.locations)

/-- Optional-chain
`study.protocolSection?.sponsorCollaboratorsModule?.leadSponsor?.class`. -/
def sponsorChain (study : Study) : Option String :=
  ((study.protocolSection.bind (·.sponsorCollaboratorsModule)).bind
    (·.leadSponsor)).bind (·.«class»)

/-- Optional-chain `study.protocolSection?.designModule?.phases`. -/
def phasesChain (study : Study) : Option (List String) :=
  (study.protocolSection.bind (·.designModule)).bind (·.phases)

/-- Body of the inner `for (const study of allStudies)` loop of
`analyzeTrendsLogic`, for one study and one analysis kind.

* `countByStatus` / `countBySponsorType`: `key = chain ?? "Unknown"`, then
  `if (key) { results[key] = (results[key] || 0) + 1 }` — the JS truthiness
  test skips an empty-string key.
* `countByCountry`: `locations?.forEach`, each location bumping
  `loc.country ?? "Unknown"`; a missing list means no iterations.
* `countByPhase`: `(phases ?? ["Unknown"]).forEach`, each listed label
  bumping its own bucket (the inner `phase ?? "Unknown"` is the identity on
  the non-nullable `string` elements of the zod schema). -/
def tallyStudy (type : AnalysisType) (results : Tally) (study : Study) :
    Tally :=
  match type with
  | .countByStatus =>
      let key := (statusChain study).getD "Unknown"
      if key ≠ "" then bump results key else results
  | .countByCountry =>
      ((locationsChain study).getD []).foldl
        (fun r loc => bump r (loc.country.getD "Unknown")) results
  | .countBySponsorType =>
      let key := (sponsorChain study).getD "Unknown"
      if key ≠ "" then bump results key else results
  | .countByPhase =>
      ((phasesChain study).getD ["Unknown"]).foldl
        (fun r phase => bump r phase) results

/-- One full pass of the aggregation loop for one analysis kind, starting
from the empty `results` object. -/
def runAnalysis (type : AnalysisType) (allStudies : List Study) : Tally :=
  allStudies.foldl (tallyStudy type) ([] : List (String × Nat))

/-- The `AnalysisResult` pushed onto `finalResults` for one kind. -/
def mkResult (type : AnalysisType) (allStudies : List Study) :
    AnalysisResult :=
  { analysisType := type
    totalStudies := allStudies.length
    results := runAnalysis type allStudies }

/-! ## Study fetcher (`fetchAllStudies`, logic.ts)

One response of the remote source: an upstream transport error (opaque, it
propagates as-is) or a page. -/

/-- A response of `service.listStudies`: `Except.error` is a thrown
transport-level error, carried opaquely. -/
abbrev SourceResponse := Except String PagedStudies

/-- `MAX_STUDIES_FOR_ANALYSIS` from logic.ts. -/
def MAX_STUDIES_FOR_ANALYSIS : Nat := 5000

/-- The errors `fetchAllStudies` can surface: the `McpError` built with
`BaseErrorCode.INVALID_INPUT` and details `{ totalStudies, limit }` when the
cap is exceeded, or a propagated upstream failure. -/
inductive FetchErr where
  | invalidInput (message : String) (totalStudies : Int) (limit : Nat)
  | upstream (e : String)
deriving DecidableEq, Repr

/-- The interpolated cap-exceeded message of logic.ts. -/
def capMessage (totalStudies : Int) : String :=
  "The query returned " ++ toString totalStudies ++
    " studies, which exceeds the limit of " ++
    toString MAX_STUDIES_FOR_ANALYSIS ++
    " for analysis. Please provide a more specific query."

/-- Outcome of the bulk `while (hasMore)` loop, together with the number of
bulk page requests the loop issued.  `starved` means the modelled response
trace ended while the loop still had a request to make (never reached in the
theorems below, which always supply enough responses). -/
inductive LoopOutcome where
  | ok (studies : List Study) (bulkCalls : Nat)
  | err (e : String) (bulkCalls : Nat)
  | starved (bulkCalls : Nat)
deriving DecidableEq, Repr

/-- `!!pageToken`: JS truthiness of the continuation token (`undefined` and
the empty string are falsy). -/
def tokenTruthy : Option String → Bool
  | none => false
  | some t => t ≠ ""

/-- The bulk retrieval `while (hasMore)` loop of `fetchAllStudies`,
consuming the trace of responses the remote source returns to its strictly
sequential page requests.  Each iteration issues one request (taking the
next response of the trace), appends `pagedStudies.studies` when present,
and recomputes `hasMore = !!pageToken && allStudies.length < totalStudies`.
The inter-page `delay` is latency only and has no effect on the result. -/
def fetchLoop (responses : List SourceResponse) (allStudies : List Study)
    (totalStudies : Int) (calls : Nat) : LoopOutcome :=
  match responses with
  | [] => .starved calls
  | response :: rest =>
      match response with
      | .error e => .err e (calls + 1)
      | .ok pagedStudies =>
          let allStudies' := match pagedStudies.studies with
            | some s => allStudies ++ s
            | none => allStudies
          let pageToken := pagedStudies.nextPageToken
          let hasMore := tokenTruthy pageToken &&
            ((allStudies'.length : Int) < totalStudies)
          if hasMore then fetchLoop rest allStudies' totalStudies (calls + 1)
          else .ok allStudies' (calls + 1)

/-- Result of `fetchAllStudies`: the fetched records or a `FetchErr`, paired
with the number of bulk page requests issued *after* the probe. -/
inductive FetchResult where
  | ok (studies : List Study) (bulkCalls : Nat)
  | err (e : FetchErr) (bulkCalls : Nat)
  | starved (bulkCalls : Nat)
deriving DecidableEq, Repr

/-- `fetchAllStudies` of logic.ts.  `probeResponse` is what the remote
source returns to the probe call (`pageSize: 1, countTotal: true`);
`bulkResponses` is the trace of responses to the bulk page requests
(`pageSize: 1000`, continuation token threaded from the previous page).

`totalStudies = initialResponse.totalCount ?? 0`; if it exceeds the cap the
structured error is thrown before any bulk request, if it is zero the empty
list is returned before any bulk request, otherwise the bulk loop runs. -/
def fetchAllStudies (probeResponse : SourceResponse)
    (bulkResponses : List SourceResponse) : FetchResult :=
  match probeResponse with
  | .error e => .err (.upstream e) 0
  | .ok initialResponse =>
      let totalStudies : Int := initialResponse.totalCount.getD 0
      if totalStudies > (MAX_STUDIES_FOR_ANALYSIS : Int) then
        .err (.invalidInput (capMessage totalStudies) totalStudies
          MAX_STUDIES_FOR_ANALYSIS) 0
      else if totalStudies = 0 then
        .ok [] 0
      else
        match fetchLoop bulkResponses [] totalStudies 0 with
        | .ok studies calls => .ok studies calls
        | .err e calls => .err (.upstream e) calls
        | .starved calls => .starved calls

/-- Outcome of `analyzeTrendsLogic`: the `{ analysis: AnalysisResult[] }`
output, or the propagated error of the fetch phase. -/
inductive TrendsOutcome where
  | ok (analysis : List AnalysisResult)
  | err (e : FetchErr)
  | starved
deriving DecidableEq, Repr

/-- `analyzeTrendsLogic` of logic.ts: fetch every matching study, normalise
`analysisType` to an array, and push one independently tallied
`AnalysisResult` per requested kind, in request order. -/
def analyzeTrendsLogic (analysisType : AnalysisTypeSpec)
    (probeResponse : SourceResponse)
    (bulkResponses : List SourceResponse) : TrendsOutcome :=
  match fetchAllStudies probeResponse bulkResponses with
  | .err e _ => .err e
  | .starved _ => .starved
  | .ok allStudies _ =>
      .ok ((analysisType.toList).map (fun t => mkResult t allStudies))

/-! ## Canonical paginated sources

Builders describing a remote source that splits a fixed record list into
successive pages chained by (opaque, non-empty) continuation tokens. -/

/-- A successful page response carrying `chunk` and a live continuation
token. -/
def midPage (chunk : List Study) : SourceResponse :=
  .ok { studies := some chunk, nextPageToken := some "tok", totalCount := none }

/-- The trace of responses of a source that serves `chunks` in order, each
non-final page carrying a continuation token, the final page carrying
`lastTok` (possibly a spurious token, possibly none). -/
def mkPages (lastTok : Option String) : List (List Study) → List SourceResponse
  | [] => []
  | [chunk] =>
      [.ok { studies := some chunk, nextPageToken := lastTok,
             totalCount := none }]
  | chunk :: rest => midPage chunk :: mkPages lastTok rest

/-- Total number of records across a list of pages. -/
def sumLens (chunks : List (List Study)) : Nat :=
  (chunks.map List.length).sum

/-! ## Lemmas about tallies -/

theorem tallySum_bump (r : Tally) (key : String) :
    tallySum (bump r key) = tallySum r + 1 := by
  induction r with
  | nil => simp [bump, tallySum]
  | cons p rest ih =>
      obtain ⟨k, v⟩ := p
      by_cases hk : k = key
      · simp [bump, hk, tallySum]
        omega
      · simp [bump, hk, tallySum, ih]
        omega

theorem tallyGet_bump_self (r : Tally) (key : String) :
    tallyGet (bump r key) key = tallyGet r key + 1 := by
  induction r with
  | nil => simp [bump, tallyGet]
  | cons p rest ih =>
      obtain ⟨k, v⟩ := p
      by_cases hk : k = key
      · simp [bump, hk, tallyGet]
      · simp [bump, hk, tallyGet, ih]

theorem tallyGet_bump_ne (r : Tally) (key key2 : String) (h : key ≠ key2) :
    tallyGet (bump r key) key2 = tallyGet r key2 := by
  induction r with
  | nil => simp [bump, tallyGet, h]
  | cons p rest ih =>
      obtain ⟨k, v⟩ := p
      by_cases hk : k = key
      · subst hk
        simp [bump, tallyGet, h]
      · by_cases hk2 : k = key2 <;>
          simp [bump, tallyGet, hk, hk2, ih, Ne.symm h]

theorem bump_pos (r : Tally) (key : String) (h : ∀ p ∈ r, 1 ≤ p.2) :
    ∀ p ∈ bump r key, 1 ≤ p.2 := by
  induction r with
  | nil =>
      intro p hp
      simp [bump] at hp
      simp [hp]
  | cons q rest ih =>
      obtain ⟨k, v⟩ := q
      intro p hp
      by_cases hk : k = key
      · simp [bump, hk] at hp
        rcases hp with hp | hp
        · simp [hp]
        · exact h p (by simp [hp])
      · simp [bump, hk] at hp
        rcases hp with hp | hp
        · exact h p (by simp [hp])
        · exact ih (fun q hq => h q (by simp [hq])) p hp

/-! ## Lemmas about the aggregation pass -/

theorem foldl_bump_pos {α : Type} (keyOf : α → String) (l : List α) :
    ∀ r : Tally, (∀ p ∈ r, 1 ≤ p.2) →
      ∀ p ∈ l.foldl (fun r x => bump r (keyOf x)) r, 1 ≤ p.2 := by
  induction l with
  | nil => intro r h; simpa using h
  | cons x xs ih =>
      intro r h
      exact ih (bump r (keyOf x)) (bump_pos r (keyOf x) h)

theorem tallyStudy_pos (type : AnalysisType) (r : Tally) (study : Study)
    (h : ∀ p ∈ r, 1 ≤ p.2) : ∀ p ∈ tallyStudy type r study, 1 ≤ p.2 := by
  cases type with
  | countByStatus =>
      simp only [tallyStudy]
      split
      · exact bump_pos _ _ h
      · exact h
  | countByCountry =>
      exact foldl_bump_pos (fun loc : Location => loc.country.getD "Unknown")
        _ r h
  | countBySponsorType =>
      simp only [tallyStudy]
      split
      · exact bump_pos _ _ h
      · exact h
  | countByPhase =>
      exact foldl_bump_pos (fun phase => phase) _ r h

theorem runAnalysis_pos (type : AnalysisType) (studies : List Study) :
    ∀ p ∈ runAnalysis type studies, 1 ≤ p.2 := by
  have aux : ∀ (l : List Study) (r : Tally), (∀ p ∈ r, 1 ≤ p.2) →
      ∀ p ∈ l.foldl (tallyStudy type) r, 1 ≤ p.2 := by
    intro l
    induction l with
    | nil => intro r h; simpa using h
    | cons s ss ih =>
        intro r h
        exact ih (tallyStudy type r s) (tallyStudy_pos type r s h)
  exact aux studies [] (by simp)

/-- Any study whose status key is not the empty string bumps exactly one
bucket of the status tally. -/
theorem tallyStudy_status_sum (r : Tally) (s : Study)
    (h : (statusChain s).getD "Unknown" ≠ "") :
    tallySum (tallyStudy .countByStatus r s) = tallySum r + 1 := by
  simp only [tallyStudy, if_pos h]
  exact tallySum_bump r _

theorem tallyStudy_sponsor_sum (r : Tally) (s : Study)
    (h : (sponsorChain s).getD "Unknown" ≠ "") :
    tallySum (tallyStudy .countBySponsorType r s) = tallySum r + 1 := by
  simp only [tallyStudy, if_pos h]
  exact tallySum_bump r _

theorem status_sum_aux (studies : List Study) :
    ∀ r : Tally, (∀ s ∈ studies, (statusChain s).getD "Unknown" ≠ "") →
      tallySum (studies.foldl (tallyStudy .countByStatus) r) =
        tallySum r + studies.length := by
  induction studies with
  | nil => intro r _; simp
  | cons s ss ih =>
      intro r h
      have hstep := tallyStudy_status_sum r s (h s (by simp))
      simp only [List.foldl_cons, List.length_cons]
      rw [ih _ (fun s2 hs2 => h s2 (by simp [hs2])), hstep]
      omega

theorem sponsor_sum_aux (studies : List Study) :
    ∀ r : Tally, (∀ s ∈ studies, (sponsorChain s).getD "Unknown" ≠ "") →
      tallySum (studies.foldl (tallyStudy .countBySponsorType) r) =
        tallySum r + studies.length := by
  induction studies with
  | nil => intro r _; simp
  | cons s ss ih =>
      intro r h
      have hstep := tallyStudy_sponsor_sum r s (h s (by simp))
      simp only [List.foldl_cons, List.length_cons]
      rw [ih _ (fun s2 hs2 => h s2 (by simp [hs2])), hstep]
      omega

/-- How every pass over a location list changes the "Unknown" bucket: one
increment per location whose extracted country key is "Unknown". -/
theorem country_fold_unknown (locs : List Location) :
    ∀ r : Tally,
      tallyGet (locs.foldl
          (fun r loc => bump r (loc.country.getD "Unknown")) r) "Unknown" =
        tallyGet r "Unknown" +
          locs.countP (fun l => decide (l.country.getD "Unknown" = "Unknown")) := by
  induction locs with
  | nil => intro r; simp
  | cons loc rest ih =>
      intro r
      simp only [List.foldl_cons, List.countP_cons, ih]
      by_cases hc : loc.country.getD "Unknown" = "Unknown"
      · rw [hc, tallyGet_bump_self]
        simp [hc]
        omega
      · rw [tallyGet_bump_ne r _ _ hc]
        simp [hc]

/-! ## Lemmas about the bulk fetch loop -/

theorem sumLens_nil : sumLens [] = 0 := rfl

theorem sumLens_cons (c : List Study) (cs : List (List Study)) :
    sumLens (c :: cs) = c.length + sumLens cs := by
  simp [sumLens]

/-- One loop iteration consuming a page with records, after which the loop
stops (dead token, or accumulator no longer below the total). -/
theorem fetchLoop_step_stop (paged : PagedStudies)
    (rest : List SourceResponse) (acc : List Study) (total : Int)
    (calls : Nat) (s : List Study) (hs : paged.studies = some s)
    (hstop : tokenTruthy paged.nextPageToken = false ∨
      ¬ (((acc ++ s).length : Int) < total)) :
    fetchLoop (.ok paged :: rest) acc total calls =
      .ok (acc ++ s) (calls + 1) := by
  simp only [fetchLoop, hs]
  rcases hstop with h | h
  · simp [h]
  · simp [h]
    intro _ h2
    exfalso
    simp only [List.length_append] at h
    push_cast at h h2
    omega

/-- One loop iteration consuming a page with records, after which the loop
continues (live token and accumulator still below the total). -/
theorem fetchLoop_step_go (paged : PagedStudies)
    (rest : List SourceResponse) (acc : List Study) (total : Int)
    (calls : Nat) (s : List Study) (hs : paged.studies = some s)
    (ht : tokenTruthy paged.nextPageToken = true)
    (hlt : ((acc ++ s).length : Int) < total) :
    fetchLoop (.ok paged :: rest) acc total calls =
      fetchLoop rest (acc ++ s) total (calls + 1) := by
  simp only [fetchLoop, hs]
  simp [ht, hlt]
  intro h2
  exfalso
  simp only [List.length_append] at hlt
  push_cast at hlt h2
  omega

/-- A transport error aborts the loop at once, surfacing the error. -/
theorem fetchLoop_step_err (e : String) (rest : List SourceResponse)
    (acc : List Study) (total : Int) (calls : Nat) :
    fetchLoop (.error e :: rest) acc total calls = .err e (calls + 1) := rfl

/-- Running the loop over a canonical paginated source: all pages are
consumed in order, the records are concatenated in page order, and one bulk
call is issued per page — the loop stops on the final page whether its token
is absent, empty, or spuriously present (the accumulator has reached the
total by then). -/
theorem fetchLoop_mkPages (lastTok : Option String)
    (chunks : List (List Study)) :
    ∀ (acc : List Study) (calls : Nat) (total : Int),
      chunks ≠ [] → (∀ c ∈ chunks, c ≠ []) →
      ((acc.length + sumLens chunks : Nat) : Int) = total →
      fetchLoop (mkPages lastTok chunks) acc total calls =
        .ok (acc ++ chunks.flatten) (calls + chunks.length) := by
  induction chunks with
  | nil => intro acc calls total h1 _ _; exact absurd rfl h1
  | cons c rest ih =>
      intro acc calls total _ h2 h3
      rw [sumLens_cons] at h3
      cases rest with
      | nil =>
          rw [sumLens_nil] at h3
          rw [show mkPages lastTok [c] =
              [.ok { studies := some c, nextPageToken := lastTok,
                     totalCount := none }] from rfl]
          rw [fetchLoop_step_stop _ _ _ _ _ c rfl
            (Or.inr (by simp only [List.length_append]; omega))]
          simp
      | cons c2 rest2 =>
          have hc2 : 0 < c2.length := List.length_pos.mpr (h2 c2 (by simp))
          have hr2 : 0 < sumLens (c2 :: rest2) := by
            rw [sumLens_cons]; omega
          rw [show mkPages lastTok (c :: c2 :: rest2) =
              midPage c :: mkPages lastTok (c2 :: rest2) from rfl]
          rw [show midPage c =
              .ok { studies := some c, nextPageToken := some "tok",
                    totalCount := none } from rfl]
          rw [fetchLoop_step_go _ _ _ _ _ c rfl (by simp [tokenTruthy])
            (by simp only [List.length_append]; omega)]
          rw [ih (acc ++ c) (calls + 1) total (by simp)
            (fun d hd => h2 d (by simp [hd]))
            (by simp only [List.length_append]; push_cast; push_cast at h3; omega)]
          simp
          omega

/-- Running the loop over a prefix of pages that all carry a live token and
leave the accumulator strictly below the total: the loop marches through
them and continues into the remaining trace. -/
theorem fetchLoop_midPages (chunks : List (List Study)) :
    ∀ (rest : List SourceResponse) (acc : List Study) (calls : Nat)
      (total : Int),
      ((acc.length + sumLens chunks : Nat) : Int) < total →
      fetchLoop (chunks.map midPage ++ rest) acc total calls =
        fetchLoop rest (acc ++ chunks.flatten) total
          (calls + chunks.length) := by
  induction chunks with
  | nil => intro rest acc calls total _; simp
  | cons c cs ih =>
      intro rest acc calls total hlt
      rw [sumLens_cons] at hlt
      rw [show (c :: cs).map midPage ++ rest =
          midPage c :: (cs.map midPage ++ rest) from rfl]
      rw [show midPage c =
          .ok { studies := some c, nextPageToken := some "tok",
                totalCount := none } from rfl]
      rw [fetchLoop_step_go _ _ _ _ _ c rfl (by simp [tokenTruthy])
        (by simp only [List.length_append]; push_cast; push_cast at hlt; omega)]
      rw [ih rest (acc ++ c) (calls + 1) total
        (by simp only [List.length_append]; push_cast; push_cast at hlt; omega)]
      congr 1
      · simp
      · simp
        omega

/-! ## Claims -/

/-- Claim C1: for every analysis request whose probe reports a total match
count strictly greater than the limit 5000, `fetchAllStudies` raises the
structured `INVALID_INPUT` error whose details carry the actual total and
the limit, and issues zero bulk page requests — the probe is the only
network call made, whatever bulk responses the source would have had. -/
theorem fetch_cap_enforced (probe : PagedStudies) (total : Int)
    (bulk : List SourceResponse)
    (hp : probe.totalCount = some total)
    (h : total > (MAX_STUDIES_FOR_ANALYSIS : Int)) :
    fetchAllStudies (.ok probe) bulk =
      .err (.invalidInput (capMessage total) total MAX_STUDIES_FOR_ANALYSIS)
        0 := by
  simp only [fetchAllStudies, hp, Option.getD_some]
  rw [if_pos h]

theorem fetch_cap_enforced_witness :
    fetchAllStudies
      (.ok { studies := none, nextPageToken := none, totalCount := some 6000 })
      [] =
      .err (.invalidInput (capMessage 6000) 6000 MAX_STUDIES_FOR_ANALYSIS)
        0 :=
  fetch_cap_enforced _ 6000 [] rfl (by norm_num [MAX_STUDIES_FOR_ANALYSIS])

/-- Claim C7: if the probe reports a total match count of exactly zero,
`fetchAllStudies` returns an empty record sequence without error and with
zero bulk page requests. -/
theorem zero_total_short_circuit (probe : PagedStudies)
    (bulk : List SourceResponse) (hp : probe.totalCount = some 0) :
    fetchAllStudies (.ok probe) bulk = .ok [] 0 := by
  simp only [fetchAllStudies, hp, Option.getD_some]
  norm_num

theorem zero_total_short_circuit_witness :
    fetchAllStudies
      (.ok { studies := none, nextPageToken := none, totalCount := some 0 })
      [midPage []] = .ok [] 0 :=
  zero_total_short_circuit _ [midPage []] rfl

/-- Claim C9: a probe response with no `totalCount` field is treated as a
total of zero: `fetchAllStudies` returns the empty sequence with zero bulk
requests and no error, so every requested analysis kind yields
`totalStudies = 0` and an empty tally. -/
theorem missing_total_treated_as_zero (probe : PagedStudies)
    (bulk : List SourceResponse) (spec : AnalysisTypeSpec)
    (hp : probe.totalCount = none) :
    fetchAllStudies (.ok probe) bulk = .ok [] 0 ∧
    analyzeTrendsLogic spec (.ok probe) bulk =
      .ok (spec.toList.map fun t =>
        { analysisType := t, totalStudies := 0, results := ([] : Tally) }) := by
  have h1 : fetchAllStudies (.ok probe) bulk = .ok [] 0 := by
    simp only [fetchAllStudies, hp, Option.getD_none]
    norm_num
  refine ⟨h1, ?_⟩
  simp only [analyzeTrendsLogic, h1]
  simp [mkResult, runAnalysis]

theorem missing_total_treated_as_zero_witness :
    fetchAllStudies
      (.ok { studies := none, nextPageToken := none, totalCount := none })
      [] = .ok [] 0 ∧
    analyzeTrendsLogic (.many [.countByStatus, .countByPhase])
      (.ok { studies := none, nextPageToken := none, totalCount := none })
      [] =
      .ok ([.countByStatus, .countByPhase].map fun t =>
        { analysisType := t, totalStudies := 0, results := ([] : Tally) }) :=
  missing_total_treated_as_zero _ [] (.many [.countByStatus, .countByPhase])
    rfl

/-- Claim C5: when `analysisType` is a list of kinds, `analyzeTrendsLogic`
returns one `AnalysisResult` per requested kind, in request order, each with
its own independently computed tally and the same
`totalStudies = allStudies.length`. -/
theorem multi_kind_results (ts : List AnalysisType)
    (probe : SourceResponse) (bulk : List SourceResponse)
    (studies : List Study) (calls : Nat)
    (h : fetchAllStudies probe bulk = .ok studies calls) :
    analyzeTrendsLogic (.many ts) probe bulk =
      .ok (ts.map fun t => mkResult t studies) ∧
    (ts.map fun t => mkResult t studies).length = ts.length ∧
    (∀ r ∈ ts.map (fun t => mkResult t studies),
      r.totalStudies = studies.length) := by
  refine ⟨?_, by simp, ?_⟩
  · simp only [analyzeTrendsLogic, h, AnalysisTypeSpec.toList]
  · intro r hr
    simp only [List.mem_map] at hr
    obtain ⟨t, _, rfl⟩ := hr
    rfl

theorem multi_kind_results_witness :
    analyzeTrendsLogic (.many [.countByStatus, .countByPhase])
      (.ok { studies := none, nextPageToken := none, totalCount := some 1 })
      (mkPages none [[(⟨none⟩ : Study)]]) =
      .ok ([.countByStatus, .countByPhase].map fun t =>
        mkResult t [(⟨none⟩ : Study)]) ∧
    ([.countByStatus, .countByPhase].map fun t =>
      mkResult t [(⟨none⟩ : Study)]).length =
        ([.countByStatus, .countByPhase] : List AnalysisType).length ∧
    (∀ r ∈ [.countByStatus, .countByPhase].map
        (fun t => mkResult t [(⟨none⟩ : Study)]),
      r.totalStudies = [(⟨none⟩ : Study)].length) :=
  multi_kind_results [.countByStatus, .countByPhase] _ _
    [(⟨none⟩ : Study)] 1 (by rfl)

/-- Claim C2: for a probed total `T = sumLens (front ++ [lastChunk])` with
`0 < T ≤ 5000`, split by the remote source into pages of size `P` (the last
page holding the 1..P remaining records), the bulk loop issues exactly
`⌈T/P⌉` bulk page requests after the probe and returns exactly the `T`
records in page order; it stops on the last page whether that page's token
is absent, empty, or spuriously present. -/
theorem fetch_full_retrieval (probe : PagedStudies)
    (front : List (List Study)) (lastChunk : List Study) (P : Nat)
    (lastTok : Option String)
    (hp : probe.totalCount =
      some ((sumLens (front ++ [lastChunk]) : Nat) : Int))
    (hcap : sumLens (front ++ [lastChunk]) ≤ MAX_STUDIES_FOR_ANALYSIS)
    (hfront : ∀ c ∈ front, c.length = P)
    (hlast1 : 0 < lastChunk.length) (hlast2 : lastChunk.length ≤ P) :
    fetchAllStudies (.ok probe) (mkPages lastTok (front ++ [lastChunk])) =
      .ok ((front ++ [lastChunk]).flatten)
        ((sumLens (front ++ [lastChunk]) + P - 1) / P) ∧
    ((front ++ [lastChunk]).flatten).length =
      sumLens (front ++ [lastChunk]) ∧
    (sumLens (front ++ [lastChunk]) + P - 1) / P = front.length + 1 := by
  have hP : 0 < P := lt_of_lt_of_le hlast1 hlast2
  have hsum : ∀ fr : List (List Study), (∀ c ∈ fr, c.length = P) →
      sumLens (fr ++ [lastChunk]) = fr.length * P + lastChunk.length := by
    intro fr
    induction fr with
    | nil => intro _; simp [sumLens]
    | cons c cs ih =>
        intro hc
        rw [List.cons_append, sumLens_cons, ih (fun d hd => hc d (by simp [hd])),
          hc c (by simp), List.length_cons]
        ring
  have hT : sumLens (front ++ [lastChunk]) =
      front.length * P + lastChunk.length := hsum front hfront
  have hceil : (sumLens (front ++ [lastChunk]) + P - 1) / P =
      front.length + 1 := by
    rw [hT]
    have h1 : front.length * P + lastChunk.length + P - 1 =
        (lastChunk.length - 1) + P * (front.length + 1) := by ring_nf; omega
    rw [h1, Nat.add_mul_div_left _ _ hP,
      Nat.div_eq_of_lt (by omega)]
    omega
  have hTpos : 0 < sumLens (front ++ [lastChunk]) := by omega
  have hflat : ((front ++ [lastChunk]).flatten).length =
      sumLens (front ++ [lastChunk]) := by
    simp [sumLens, Function.comp]
  refine ⟨?_, hflat, hceil⟩
  have hloop := fetchLoop_mkPages lastTok (front ++ [lastChunk]) [] 0
    ((sumLens (front ++ [lastChunk]) : Nat) : Int) (by simp)
    (by
      intro c hc
      rcases List.mem_append.mp hc with hc | hc
      · have := hfront c hc
        intro hnil
        rw [hnil] at this
        simp at this
        omega
      · simp at hc
        rw [hc]
        intro hnil
        rw [hnil] at hlast1
        simp at hlast1)
    (by simp)
  simp only [fetchAllStudies, hp, Option.getD_some]
  rw [if_neg (by
      simp only [not_lt]
      exact_mod_cast hcap),
    if_neg (by exact_mod_cast hTpos.ne')]
  rw [hloop]
  simp [hceil]

theorem fetch_full_retrieval_witness :
    fetchAllStudies
      (.ok { studies := none, nextPageToken := none, totalCount := some 3 })
      (mkPages (some "spurious")
        [[(⟨none⟩ : Study), (⟨none⟩ : Study)], [(⟨none⟩ : Study)]]) =
      .ok ([[(⟨none⟩ : Study), (⟨none⟩ : Study)],
            [(⟨none⟩ : Study)]].flatten)
        ((sumLens [[(⟨none⟩ : Study), (⟨none⟩ : Study)],
            [(⟨none⟩ : Study)]] + 2 - 1) / 2) ∧
    (([[(⟨none⟩ : Study), (⟨none⟩ : Study)],
        [(⟨none⟩ : Study)]] : List (List Study)).flatten).length =
      sumLens [[(⟨none⟩ : Study), (⟨none⟩ : Study)], [(⟨none⟩ : Study)]] ∧
    (sumLens [[(⟨none⟩ : Study), (⟨none⟩ : Study)],
        [(⟨none⟩ : Study)]] + 2 - 1) / 2 =
      ([[(⟨none⟩ : Study), (⟨none⟩ : Study)]] : List (List Study)).length
        + 1 :=
  fetch_full_retrieval _ [[⟨none⟩, ⟨none⟩]] [⟨none⟩] 2 (some "spurious")
    (by rfl) (by decide) (by simp) (by simp) (by simp)

/-- Claim C6: if a bulk page request fails after N successful pages that
had not yet exhausted the probed total, the whole request fails with the
upstream error after N+1 bulk calls, and `analyzeTrendsLogic` surfaces that
error with no partial `AnalysisResult`: the accumulated records are
discarded and no tally is computed. -/
theorem bulk_failure_aborts (probe : PagedStudies) (total : Int)
    (chunks : List (List Study)) (e : String) (rest : List SourceResponse)
    (spec : AnalysisTypeSpec)
    (hp : probe.totalCount = some total)
    (hcap : total ≤ (MAX_STUDIES_FOR_ANALYSIS : Int))
    (hlt : ((sumLens chunks : Nat) : Int) < total) :
    fetchAllStudies (.ok probe) (chunks.map midPage ++ .error e :: rest) =
      .err (.upstream e) (chunks.length + 1) ∧
    analyzeTrendsLogic spec (.ok probe)
      (chunks.map midPage ++ .error e :: rest) = .err (.upstream e) := by
  have h0 : (0 : Int) < total :=
    lt_of_le_of_lt (by positivity) hlt
  have h1 : fetchAllStudies (.ok probe)
      (chunks.map midPage ++ .error e :: rest) =
      .err (.upstream e) (chunks.length + 1) := by
    simp only [fetchAllStudies, hp, Option.getD_some]
    rw [if_neg (not_lt.mpr hcap), if_neg h0.ne',
      fetchLoop_midPages chunks (.error e :: rest) [] 0 total
        (by simpa using hlt),
      fetchLoop_step_err]
    simp
  exact ⟨h1, by simp only [analyzeTrendsLogic, h1]⟩

theorem bulk_failure_aborts_witness :
    fetchAllStudies
      (.ok { studies := none, nextPageToken := none, totalCount := some 5 })
      ([[(⟨none⟩ : Study), (⟨none⟩ : Study)]].map midPage ++
        .error "boom" :: []) =
      .err (.upstream "boom")
        (([[(⟨none⟩ : Study), (⟨none⟩ : Study)]] :
          List (List Study)).length + 1) ∧
    analyzeTrendsLogic (.single .countByStatus)
      (.ok { studies := none, nextPageToken := none, totalCount := some 5 })
      ([[(⟨none⟩ : Study), (⟨none⟩ : Study)]].map midPage ++
        .error "boom" :: []) = .err (.upstream "boom") :=
  bulk_failure_aborts _ 5 [[⟨none⟩, ⟨none⟩]] "boom" []
    (.single .countByStatus) rfl (by norm_num [MAX_STUDIES_FOR_ANALYSIS])
    (by norm_num [sumLens])

/-- Claim C3, counterexample: a study whose `phases` field is present but
holds the empty array has zero phase labels, yet contributes nothing to the
phase tally — no "Unknown" increment — because the `?? ["Unknown"]`
fallback fires only when the field is nullish. -/
theorem phase_empty_list_counterexample :
    runAnalysis .countByPhase
      [(⟨some ⟨none, none, none, some ⟨some []⟩⟩⟩ : Study)] = ([] : Tally) ∧
    tallyGet (runAnalysis .countByPhase
      [(⟨some ⟨none, none, none, some ⟨some []⟩⟩⟩ : Study)]) "Unknown" = 0 :=
  ⟨rfl, rfl⟩

/-- Claim C3 as amended: in a countByCountry analysis a study with zero
location entries (absent or empty list) contributes zero increments — in
particular no "Unknown" entry appears solely from it — while in a
countByPhase analysis a study whose phase list is *absent* contributes
exactly one increment to the "Unknown" bucket; a study whose phase list is
present but empty contributes none. -/
theorem country_phase_empty_asymmetry (r : Tally) (s : Study) :
    (locationsChain s = none ∨ locationsChain s = some [] →
      tallyStudy .countByCountry r s = r) ∧
    (phasesChain s = none →
      tallyStudy .countByPhase r s = bump r "Unknown") ∧
    (phasesChain s = some [] → tallyStudy .countByPhase r s = r) := by
  refine ⟨?_, ?_, ?_⟩
  · intro h
    rcases h with h | h <;> simp [tallyStudy, h]
  · intro h
    simp [tallyStudy, h]
  · intro h
    simp [tallyStudy, h]

theorem country_phase_empty_asymmetry_witness :
    tallyStudy .countByCountry [] (⟨none⟩ : Study) = ([] : Tally) ∧
    tallyStudy .countByPhase [] (⟨none⟩ : Study) = bump [] "Unknown" :=
  ⟨(country_phase_empty_asymmetry [] ⟨none⟩).1 (Or.inl rfl),
   (country_phase_empty_asymmetry [] ⟨none⟩).2.1 rfl⟩

/-- Claim C4, counterexample: a non-empty record set whose single study
carries the empty string as `overallStatus`: the JS truthiness guard
`if (key)` skips it, so the status tally sums to 0 while totalStudies is
1. -/
theorem status_empty_label_counterexample :
    tallySum (runAnalysis .countByStatus
      [(⟨some ⟨some ⟨some ""⟩, none, none, none⟩⟩ : Study)]) = 0 ∧
    [(⟨some ⟨some ⟨some ""⟩, none, none, none⟩⟩ : Study)].length = 1 :=
  ⟨rfl, rfl⟩

/-- Claim C4 as amended: for every fetched record set in which no study
carries the *empty string* as its status label (resp. lead-sponsor class),
the sum of all countByStatus (resp. countBySponsorType) tally values equals
`totalStudies` — every such study contributes exactly one increment, and a
study missing the attribute is keyed under "Unknown"; a study whose label
is the empty string is skipped by the `if (key)` truthiness guard. -/
theorem single_valued_tally_sum (studies : List Study)
    (hst : ∀ s ∈ studies, (statusChain s).getD "Unknown" ≠ "")
    (hsp : ∀ s ∈ studies, (sponsorChain s).getD "Unknown" ≠ "") :
    tallySum (runAnalysis .countByStatus studies) = studies.length ∧
    tallySum (runAnalysis .countBySponsorType studies) = studies.length ∧
    (∀ (r : Tally) (s : Study), statusChain s = none →
      tallyStudy .countByStatus r s = bump r "Unknown") ∧
    (∀ (r : Tally) (s : Study), sponsorChain s = none →
      tallyStudy .countBySponsorType r s = bump r "Unknown") := by
  refine ⟨?_, ?_, ?_, ?_⟩
  · have h := status_sum_aux studies [] hst
    simpa [runAnalysis, tallySum] using h
  · have h := sponsor_sum_aux studies [] hsp
    simpa [runAnalysis, tallySum] using h
  · intro r s h
    simp [tallyStudy, h]
  · intro r s h
    simp [tallyStudy, h]

theorem single_valued_tally_sum_witness :
    tallySum (runAnalysis .countByStatus [(⟨none⟩ : Study)]) = 1 ∧
    tallySum (runAnalysis .countBySponsorType [(⟨none⟩ : Study)]) = 1 ∧
    (∀ (r : Tally) (s : Study), statusChain s = none →
      tallyStudy .countByStatus r s = bump r "Unknown") ∧
    (∀ (r : Tally) (s : Study), sponsorChain s = none →
      tallyStudy .countBySponsorType r s = bump r "Unknown") :=
  single_valued_tally_sum [(⟨none⟩ : Study)]
    (by intro s hs; simp at hs; subst hs; simp [statusChain])
    (by intro s hs; simp at hs; subst hs; simp [sponsorChain])

/-- Claim C8: every `AnalysisResult` produced for any analysis kind over
any fetched record set has `totalStudies ≥ 0` and only positive counts in
its tally — no zero-count bucket is ever emitted. -/
theorem tally_positive_counts (type : AnalysisType) (studies : List Study) :
    0 ≤ (mkResult type studies).totalStudies ∧
    ∀ p ∈ (mkResult type studies).results, 1 ≤ p.2 :=
  ⟨Nat.zero_le _, runAnalysis_pos type studies⟩

theorem tally_positive_counts_witness :
    0 ≤ (mkResult .countByStatus [(⟨none⟩ : Study)]).totalStudies ∧
    ∀ p ∈ (mkResult .countByStatus [(⟨none⟩ : Study)]).results, 1 ≤ p.2 :=
  tally_positive_counts .countByStatus [(⟨none⟩ : Study)]

/-- Claim C10: in a countByCountry analysis, each location entry whose
extracted country key is "Unknown" — in particular every location whose
country field is missing — contributes one increment to the "Unknown"
bucket, so "Unknown" can appear in the country tally even though a study
with no location entries contributes nothing. -/
theorem missing_country_unknown_bucket (r : Tally) (s : Study)
    (locs : List Location) (h : locationsChain s = some locs) :
    tallyGet (tallyStudy .countByCountry r s) "Unknown" =
      tallyGet r "Unknown" +
        locs.countP (fun l => decide (l.country.getD "Unknown" = "Unknown")) ∧
    (∀ l ∈ locs, l.country = none →
      1 ≤ tallyGet (tallyStudy .countByCountry r s) "Unknown") ∧
    (∀ s2 : Study, locationsChain s2 = none →
      tallyStudy .countByCountry r s2 = r) := by
  have hmain : tallyGet (tallyStudy .countByCountry r s) "Unknown" =
      tallyGet r "Unknown" +
        locs.countP
          (fun l => decide (l.country.getD "Unknown" = "Unknown")) := by
    simp only [tallyStudy, h, Option.getD_some]
    exact country_fold_unknown locs r
  refine ⟨hmain, ?_, ?_⟩
  · intro l hl hc
    have hpos : 0 <
        locs.countP (fun l => decide (l.country.getD "Unknown" = "Unknown")) :=
      List.countP_pos_iff.mpr ⟨l, hl, by simp [hc]⟩
    omega
  · intro s2 h2
    simp [tallyStudy, h2]

theorem missing_country_unknown_bucket_witness :
    tallyGet (tallyStudy .countByCountry []
      (⟨some ⟨none, some ⟨some [⟨none, none, none⟩]⟩, none, none⟩⟩ : Study))
      "Unknown" =
      tallyGet [] "Unknown" +
        [(⟨none, none, none⟩ : Location)].countP
          (fun l => decide (l.country.getD "Unknown" = "Unknown")) ∧
    (∀ l ∈ [(⟨none, none, none⟩ : Location)], l.country = none →
      1 ≤ tallyGet (tallyStudy .countByCountry []
        (⟨some ⟨none, some ⟨some [⟨none, none, none⟩]⟩, none,
          none⟩⟩ : Study)) "Unknown") ∧
    (∀ s2 : Study, locationsChain s2 = none →
      tallyStudy .countByCountry [] s2 = []) :=
  missing_country_unknown_bucket [] _ [⟨none, none, none⟩] rfl

end ClinicalTrials
